import Mathlib

/-!
# Verification of the COG (Cloud Optimized GeoTIFF) reader core

A shallow embedding of the tile/strip/geokey reading logic of the
repository (files `src/cog.tiff.ts` and the unnamed image file containing
`CogTiffImage`), together with theorems settling the frozen claims.

Modelling conventions:

* JavaScript numbers are modelled as `Nat`/`Int` where the source only ever
  holds unsigned integers (sizes, offsets, byte counts, indices), and as `Rat`
  for the resolution arithmetic of `getImageByResolution` (the source values
  there are IEEE doubles; the rational model is exact, which agrees with the
  source on all inputs whose intermediate values are exactly representable,
  in particular on every input used below).
* Fallible code returns `Except String`; the error strings abbreviate the
  source messages.
* I/O is made explicit: a `Source` is a pure function
  `fetch : offset -> length -> bytes`, and every operation that can fetch
  returns, next to its result, the list of `(offset, length)` fetches it
  performed against the source, in order.
* The helper `getValueAt` of `read/tiff.tag.factory.js` is not part of the
  sources; following the spec ("Offset: fetches the entire array at once,
  caches as a typed array"), an offset tag is modelled by its loaded array and
  `getValueAt` by indexing that array.
-/

/-! ## Resolution selection (`CogTiff.getImageByResolution`) -/

/-- The data of one image that `CogTiff.getImageByResolution` reads: the
image size (only the width is used) and `resolution[0]` (only read on
`images[0]`). -/
structure Img where
  width : ℚ
  resX : ℚ
deriving DecidableEq

/-- Default image used for out-of-range list reads (the loop of the source
never performs any). -/
def dImg : Img := ⟨0, 0⟩

/-- Embeds `resolutionBaseX = refX * firstImageSize.width` from
`CogTiff.getImageByResolution`. -/
def resolutionBaseX (images : List Img) : ℚ :=
  (images.getD 0 dImg).resX * (images.getD 0 dImg).width

/-- Embeds the loop body computation
`imgResolutionX = resolutionBaseX / imgSize.width` for image `i`:
the x-resolution of image `i` in the base image's units. -/
def imgResolutionX (images : List Img) (i : Nat) : ℚ :=
  resolutionBaseX images / (images.getD i dImg).width

/-- Embeds the loop `for (let i = this.images.length - 1; i > 0; i--)` of
`CogTiff.getImageByResolution`: scan indices `i, i-1, ..., 1` and return the
first index whose computed x-resolution is within `0.01` of the requested
resolution; fall through to `0`. -/
def scanImages (images : List Img) (resolution : ℚ) : Nat → Nat
  | 0 => 0
  | i + 1 =>
    if imgResolutionX images (i + 1) - resolution ≤ 1 / 100 then i + 1
    else scanImages images resolution i

/-- Embeds `CogTiff.getImageByResolution`, returning the index of the image
the source returns (the source returns `this.images[i]` itself). -/
def getImageByResolution (images : List Img) (resolution : ℚ) : Nat :=
  scanImages images resolution (images.length - 1)

/-! ## Tags and the tile/strip read path (`CogTiffImage`) -/

/-- A numeric tag as seen by the `getOffset` helper: either an inline tag
(the decoded value slot: a scalar when the count is 1, an array otherwise)
or an offset tag whose element array has been loaded (see the note on
`getValueAt` in the module docstring). -/
inductive NumTag where
  | inline (values : List Nat)
  | offsetArr (values : List Nat)
deriving DecidableEq

/-- The `count` field of a tag; by the spec's tag invariant it equals the
number of logical elements. -/
def NumTag.count : NumTag → Nat
  | .inline vs => vs.length
  | .offsetArr vs => vs.length

/-- Embeds the module-level helper `getOffset(tiff, x, index)`:
bounds check `index > x.count || index < 0`, then inline tags return
`value[index]` (the bare scalar when `count <= 1`), offset tags are read
through `getValueAt`, modelled as indexing the loaded array. -/
def getOffset (x : NumTag) (index : Int) : Except String Nat :=
  if (x.count : Int) < index ∨ index < 0 then
    .error "TagIndex: out of bounds"
  else
    match x with
    | .inline vs => if 1 < vs.length then .ok (vs.getD index.toNat 0) else .ok (vs.headD 0)
    | .offsetArr vs => .ok (vs.getD index.toNat 0)

/-- Mime type of a tile, as produced by the `TiffCompression` table
(`const/tiff.mime.js`, not among the sources).
Modelled from the spec: the table maps the numeric `Compression` tag to a
mime tag; code 7 is JPEG, codes 1/5/8/50001 are the non-JPEG compressions the
spec names (uncompressed, LZW, Deflate, WebP), anything unknown is absent. -/
inductive MimeType where
  | jpeg
  | lzw
  | deflate
  | webp
  | octet
deriving DecidableEq

/-- The `TiffCompression` lookup: numeric compression code to mime type.
Modelled from the spec (see `MimeType`). -/
def tiffCompressionMime (code : Nat) : Option MimeType :=
  match code with
  | 1 => some .octet
  | 5 => some .lzw
  | 7 => some .jpeg
  | 8 => some .deflate
  | 50001 => some .webp
  | _ => none

/-- The per-image tag data the tile/strip path reads, with `none` for an
absent tag (or one whose value is not loaded). -/
structure ImageModel where
  width : Nat
  height : Nat
  tileWidth : Option Nat
  tileHeight : Option Nat
  compression : Option Nat
  jpegTables : Option (List Nat)
  tileOffsets : Option NumTag
  tileByteCounts : Option NumTag
  stripOffsets : Option NumTag
  stripByteCounts : Option NumTag

/-- The reader state the image methods consult: the ghost-option tile leader
size (`options?.tileLeaderByteSize`, `none` or `some 0` when absent, the
source tests it for truthiness) and the byte source. -/
structure TiffModel where
  leaderBytes : Option Nat
  source : Nat → Nat → List Nat

/-- Embeds `CogTiffImage.isTiled`: the `TileWidth` tag is present. -/
def isTiled (img : ImageModel) : Bool :=
  img.tileWidth.isSome

/-- Ceiling division on naturals, the value of `Math.ceil(a / b)` for the
natural sizes the source divides (exact for `b > 0`). -/
def ceilDiv (a b : Nat) : Nat := (a + b - 1) / b

/-- Embeds `nxTiles = Math.ceil(size.width / tiles.width)`. -/
def nxTiles (img : ImageModel) : Nat :=
  ceilDiv img.width (img.tileWidth.getD 0)

/-- Embeds `nyTiles = Math.ceil(size.height / tiles.height)`. -/
def nyTiles (img : ImageModel) : Nat :=
  ceilDiv img.height (img.tileHeight.getD 0)

/-- Embeds the index computation `idx = y * nxTiles + x` of `getTile` and
`hasTile`. -/
def tileIndex (nx : Nat) (x y : Int) : Int := y * (nx : Int) + x

/-- Little-endian unsigned integer decode of the first `width` bytes,
the value of `getUint(view, 0, width, littleEndian)` (`util/bytes.js`, not
among the sources). Modelled from the spec: decode the unsigned int of
width `leaderBytes`. -/
def leUint (bytes : List Nat) : Nat → Nat
  | 0 => 0
  | w + 1 => bytes.headD 0 + 256 * leUint bytes.tail w

/-- Embeds `CogTiffImage.getTileSize(index)`: with a truthy tile leader size,
read the tile offset, short-circuit sparse tiles (`offset === 0`), otherwise
fetch the `leaderBytes` bytes before the tile and decode them as the size;
without a leader, read offset and byte count from the two tag arrays.
Returns the pair `(offset, imageSize)` and the fetches performed. -/
def getTileSize (tiff : TiffModel) (img : ImageModel) (index : Int) :
    Except String ((Nat × Nat) × List (Nat × Nat)) :=
  let leaderBytes := tiff.leaderBytes.getD 0
  if leaderBytes ≠ 0 then
    match img.tileOffsets with
    | none => .error "No tile offsets found"
    | some tileOffset =>
      match getOffset tileOffset index with
      | .error e => .error e
      | .ok offset =>
        if offset = 0 then .ok ((0, 0), [])
        else
          .ok ((offset, leUint (tiff.source (offset - leaderBytes) leaderBytes) leaderBytes),
            [(offset - leaderBytes, leaderBytes)])
  else
    match img.tileByteCounts with
    | none => .error "No tile byte counts found"
    | some byteCounts =>
      match img.tileOffsets with
      | none => .error "No tile offsets found"
      | some tileOffset =>
        match getOffset tileOffset index, getOffset byteCounts index with
        | .ok offset, .ok imageSize => .ok ((offset, imageSize), [])
        | .error e, _ => .error e
        | .ok _, .error e => .error e

/-- Embeds `CogTiffImage.getJpegHeader(bytes)`: drop the EndOfImage marker
from the `JPEGTables` value and the StartOfImage marker from the payload and
concatenate. (The source allocates `bytes.length + tableData.length - 2`
bytes and fills them with exactly these two slices; the concatenation is that
array whenever the tables and the payload have at least 2 bytes each, which
the JPEG claims assume.) -/
def getJpegHeader (img : ImageModel) (bytes : List Nat) : Except String (List Nat) :=
  match img.jpegTables with
  | none => .error "Unable to find Jpeg header"
  | some tables =>
    .ok (tables.take (tables.length - 2) ++ bytes.drop 2)

/-- Embeds `CogTiffImage.getBytes(offset, byteCount)`: resolve the mime type
from the `Compression` tag, return `none` for a zero byte count, fetch the
range, fail on a short read, and splice the JPEG header for JPEG tiles. -/
def getBytes (tiff : TiffModel) (img : ImageModel) (offset byteCount : Nat) :
    Except String (Option (MimeType × List Nat) × List (Nat × Nat)) :=
  match img.compression.bind tiffCompressionMime with
  | none => .error "Unsupported compression"
  | some mimeType =>
    if byteCount = 0 then .ok (none, [])
    else
      let bytes := tiff.source offset byteCount
      if bytes.length < byteCount then .error "Failed to fetch bytes"
      else if mimeType = .jpeg then
        match getJpegHeader img bytes with
        | .error e => .error e
        | .ok spliced => .ok (some (.jpeg, spliced), [(offset, byteCount)])
      else .ok (some (mimeType, bytes), [(offset, byteCount)])

/-- The part of `CogTiffImage.getTile` after its two range guards: look up
offset and size of the tile and read its bytes, accumulating the fetches. -/
def getTileAtIndex (tiff : TiffModel) (img : ImageModel) (idx : Int) :
    Except String (Option (MimeType × List Nat) × List (Nat × Nat)) :=
  match getTileSize tiff img idx with
  | .error e => .error e
  | .ok (p, fetches) =>
    match getBytes tiff img p.1 p.2 with
    | .error e => .error e
    | .ok (res, fetches2) => .ok (res, fetches ++ fetches2)

/-- Embeds `CogTiffImage.getTile(x, y)`: mime check, the guard
`x >= nxTiles || y >= nyTiles`, the guard `idx >= totalTiles`, then the
tile read. -/
def getTile (tiff : TiffModel) (img : ImageModel) (x y : Int) :
    Except String (Option (MimeType × List Nat) × List (Nat × Nat)) :=
  match img.compression.bind tiffCompressionMime with
  | none => .error "Unsupported compression"
  | some _ =>
    if (nxTiles img : Int) ≤ x ∨ (nyTiles img : Int) ≤ y then
      .error "Tile index is outside of range"
    else if ((nxTiles img * nyTiles img : Nat) : Int) ≤ tileIndex (nxTiles img) x y then
      .error "Tile index is outside of tile range"
    else getTileAtIndex tiff img (tileIndex (nxTiles img) x y)

/-- Embeds `CogTiffImage.hasTile(x, y)`: out-of-range coordinates (in the
sense of the guard `x >= nxTiles || y >= nyTiles`) answer `false`; otherwise
the recorded tile offset is compared against `0`. -/
def hasTile (tiff : TiffModel) (img : ImageModel) (x y : Int) :
    Except String (Bool × List (Nat × Nat)) :=
  if (nxTiles img : Int) ≤ x ∨ (nyTiles img : Int) ≤ y then .ok (false, [])
  else
    match getTileSize tiff img (tileIndex (nxTiles img) x y) with
    | .error e => .error e
    | .ok (p, fetches) => .ok (decide (0 < p.1), fetches)

/-- Embeds `CogTiffImage.getStrip(index)`. The source destructures
`[byteCount, offset]` from `[getOffset(offsets, index), getOffset(byteCounts,
index)]`, so despite the local names, `byteCount` below holds
`StripOffsets[index]` and `offset` holds `StripByteCounts[index]`, and the
call `getBytes(byteCount, offset)` passes `StripOffsets[index]` as the file
offset and `StripByteCounts[index]` as the length. -/
def getStrip (tiff : TiffModel) (img : ImageModel) (index : Int) :
    Except String (Option (MimeType × List Nat) × List (Nat × Nat)) :=
  if isTiled img then .error "Cannot read stripes, tiff is tiled"
  else
    match img.stripByteCounts with
    | none => .error "TypeError: byteCounts is undefined"
    | some byteCounts =>
      if (byteCounts.count : Int) ≤ index then .error "Cannot read strip, index out of bounds"
      else
        match img.stripOffsets with
        | none => .error "TypeError: offsets is undefined"
        | some offsets =>
          match getOffset offsets index, getOffset byteCounts index with
          | .ok byteCount, .ok offset => getBytes tiff img byteCount offset
          | .error e, _ => .error e
          | .ok _, .error e => .error e

/-- Embeds `CogTiffImage.getTileBounds(x, y)` as `(x, y, width, height)`:
clamp the right and bottom edge tiles to the image rectangle. -/
def getTileBounds (img : ImageModel) (x y : Int) : Int × Int × Int × Int :=
  let tw : Int := img.tileWidth.getD 0
  let th : Int := img.tileHeight.getD 0
  let top := y * th
  let left := x * tw
  let width := if (img.width : Int) ≤ left + tw then (img.width : Int) - left else tw
  let height := if (img.height : Int) ≤ top + th then (img.height : Int) - top else th
  (left, top, width, height)

/-! ## GeoKeyDirectory unpacking (`CogTiffImage.loadGeoTiffTags`) -/

/-- The loaded value of a tag referenced through `tiffTagLocation`, as the
unpacking loop distinguishes it: a string (`GeoAsciiParams`) or any other
present value (the loop throws on those). `none` at the lookup stands for a
missing tag or a `null` value (the loop skips those). -/
inductive TagVal where
  | str (s : String)
  | nonString
deriving DecidableEq

/-- A value stored into `tagsGeo`: the raw `valueOrOffset` number, or an
extracted string. -/
inductive GeoVal where
  | num (n : Nat)
  | strv (s : String)
deriving DecidableEq

/-- JavaScript `String.prototype.slice(a, b)` for `0 <= a <= b` on the
code points of the string: the characters of `[a, b)`. -/
def strSlice (s : String) (a b : Nat) : String :=
  ((s.toList.drop a).take (b - a)).asString

/-- Whitespace predicate of JavaScript `String.prototype.trim` restricted to
the ASCII whitespace occurring in TIFF ascii data. -/
def isWsp (c : Char) : Bool :=
  c = ' ' || c = '\t' || c = '\n' || c = '\r'

/-- JavaScript `String.prototype.trim`: drop leading and trailing
whitespace. -/
def jsTrim (s : String) : String :=
  ((((s.toList.dropWhile isWsp).reverse).dropWhile isWsp).reverse).asString

/-- Embeds the unpacking loop of `CogTiffImage.loadGeoTiffTags` over a
loaded `GeoKeyDirectory` value `dir` (a Uint16 array): for
`i = 4, 8, ..., geoTags[3] * 4`, read the 4-tuple
`(key, tiffTagLocation, count, valueOrOffset)`; a zero location stores the
number, otherwise the referenced tag's string value is sliced as
`[offset, offset + count - 1)` and trimmed; a present non-string value
throws. `lookup` is `this.tags.get` restricted to the loaded values. The
result is the `tagsGeo` map as an insertion-ordered list (later inserts
override on lookup, matching `Map.set`). -/
def loadGeoTiffTags (dir : List Nat) (lookup : Nat → Option TagVal) :
    Except String (List (Nat × GeoVal)) :=
  (List.range (dir.getD 3 0)).foldlM
    (fun acc j =>
      let i := 4 * j + 4
      let key := dir.getD i 0
      let locationTagId := dir.getD (i + 1) 0
      let offset := dir.getD (i + 3) 0
      if locationTagId = 0 then .ok (acc ++ [(key, GeoVal.num offset)])
      else
        match lookup locationTagId with
        | none => .ok acc
        | some (TagVal.str s) =>
          let count := dir.getD (i + 2) 0
          .ok (acc ++ [(key, GeoVal.strv (jsTrim (strSlice s offset (offset + count - 1))))])
        | some TagVal.nonString => .error "Failed to extract GeoTiffTags")
    []

/-- Embeds `CogTiffImage.valueGeo(tag)` applied after `loadGeoTiffTags`:
look the key up in the produced `tagsGeo` map (last insert wins). -/
def valueGeo (tagsGeo : List (Nat × GeoVal)) (key : Nat) : Option GeoVal :=
  (tagsGeo.reverse.find? (fun p => p.1 == key)).map (fun p => p.2)

/-! ## Concrete instances used by counterexamples and witnesses -/

/-- The image pyramid of the spec's resolution-selection scenario: base
resolution `1.0`, widths halving, so the overview resolutions computed by
`getImageByResolution` are `2.0`, `4.0`, `8.0`. -/
def c6images : List Img := [⟨800, 1⟩, ⟨400, 2⟩, ⟨200, 4⟩, ⟨100, 8⟩]

/-- A source that answers every fetch with the requested number of `7`
bytes. -/
def srcSeven : Nat → Nat → List Nat := fun _ n => List.replicate n 7

/-- A reader without the GDAL tile-leader optimization. -/
def tiffPlain : TiffModel := ⟨none, srcSeven⟩

/-- A reader with a 4-byte tile leader. -/
def tiffLeader : TiffModel := ⟨some 4, srcSeven⟩

/-- A 512 x 512 image with 256 x 256 tiles (a 2 x 2 tile grid) whose first
tile has recorded offset `0` but recorded byte count `5`. -/
def imgSparseMix : ImageModel :=
  { width := 512, height := 512, tileWidth := some 256, tileHeight := some 256,
    compression := some 1, jpegTables := none,
    tileOffsets := some (.offsetArr [0, 1000, 2000, 3000]),
    tileByteCounts := some (.offsetArr [5, 5, 5, 5]),
    stripOffsets := none, stripByteCounts := none }

/-- A 512 x 512 image with 256 x 256 tiles, all four tiles present. -/
def imgAllTiles : ImageModel :=
  { width := 512, height := 512, tileWidth := some 256, tileHeight := some 256,
    compression := some 1, jpegTables := none,
    tileOffsets := some (.offsetArr [1000, 2000, 3000, 4000]),
    tileByteCounts := some (.offsetArr [10, 10, 10, 10]),
    stripOffsets := none, stripByteCounts := none }

/-- A 500 x 500 image with 256 x 256 tiles: the right and bottom edge tiles
are 244 pixels. -/
def img500 : ImageModel :=
  { width := 500, height := 500, tileWidth := some 256, tileHeight := some 256,
    compression := some 1, jpegTables := none,
    tileOffsets := some (.offsetArr [1000, 2000, 3000, 4000]),
    tileByteCounts := some (.offsetArr [10, 10, 10, 10]),
    stripOffsets := none, stripByteCounts := none }

/-- An untiled (striped) image with one strip of 5 bytes at offset 100. -/
def imgStrip : ImageModel :=
  { width := 256, height := 256, tileWidth := none, tileHeight := none,
    compression := some 1, jpegTables := none,
    tileOffsets := none, tileByteCounts := none,
    stripOffsets := some (.offsetArr [100]),
    stripByteCounts := some (.offsetArr [5]) }

/-- An untiled JPEG-compressed image with one strip of 6 recorded bytes at
offset 100 and a 6-byte `JPEGTables` value. -/
def imgStripJpeg : ImageModel :=
  { width := 256, height := 256, tileWidth := none, tileHeight := none,
    compression := some 7, jpegTables := some [255, 216, 255, 219, 255, 217],
    tileOffsets := none, tileByteCounts := none,
    stripOffsets := some (.offsetArr [100]),
    stripByteCounts := some (.offsetArr [6]) }

/-- An untiled image whose single strip has recorded byte count 0. -/
def imgStripZero : ImageModel :=
  { width := 256, height := 256, tileWidth := none, tileHeight := none,
    compression := some 1, jpegTables := none,
    tileOffsets := none, tileByteCounts := none,
    stripOffsets := some (.offsetArr [50]),
    stripByteCounts := some (.offsetArr [0]) }

/-- A minimal JPEG tile payload: SOI, two body bytes, EOI. -/
def jpegPayload : List Nat := [255, 216, 7, 7, 255, 217]

/-- A reader whose source always answers with `jpegPayload`. -/
def tiffJpegSrc : TiffModel := ⟨none, fun _ _ => jpegPayload⟩

/-- A JPEG-compressed tiled image whose `JPEGTables` value is the 4-byte
`SOI, EOI` table block. -/
def imgJpeg : ImageModel :=
  { width := 256, height := 256, tileWidth := some 256, tileHeight := some 256,
    compression := some 7, jpegTables := some [255, 216, 255, 217],
    tileOffsets := some (.offsetArr [100]),
    tileByteCounts := some (.offsetArr [6]),
    stripOffsets := none, stripByteCounts := none }

/-- A 512 x 256 image (a 2 x 1 tile grid) whose tile tag arrays have two
elements. -/
def imgTwo : ImageModel :=
  { width := 512, height := 256, tileWidth := some 256, tileHeight := some 256,
    compression := some 1, jpegTables := none,
    tileOffsets := some (.offsetArr [5, 6]),
    tileByteCounts := some (.offsetArr [8, 9]),
    stripOffsets := none, stripByteCounts := none }

/-- The GeoKeyDirectory of the spec's GeoKey scenario: header with one key,
then the tuple `(1026, 34737, 11, 0)`. -/
def c4dir : List Nat := [1, 1, 0, 1, 1026, 34737, 11, 0]

/-- The loaded tags of the GeoKey scenario: `GeoAsciiParams` (tag 34737) has
the string value given by the spec. -/
def c4lookup : Nat → Option TagVal :=
  fun id => if id = 34737 then some (TagVal.str "WGS 84|foo|") else none

/-! ## Helper lemmas -/

/-- The scan of `getImageByResolution` never runs past its starting index. -/
theorem scanImages_le (images : List Img) (r : ℚ) : ∀ i, scanImages images r i ≤ i := by
  intro i
  induction i with
  | zero => simp [scanImages]
  | succ n ih =>
    simp only [scanImages]
    split
    · exact Nat.le_refl _
    · exact Nat.le_trans ih (Nat.le_succ n)

/-- When the scan returns a positive index, that index satisfied the loop
condition. -/
theorem scanImages_qual (images : List Img) (r : ℚ) :
    ∀ i, 0 < scanImages images r i →
      imgResolutionX images (scanImages images r i) - r ≤ 1 / 100 := by
  intro i
  induction i with
  | zero => intro h; simp [scanImages] at h
  | succ n ih =>
    by_cases hc : imgResolutionX images (n + 1) - r ≤ 1 / 100
    · simp only [scanImages, if_pos hc]
      intro _
      exact hc
    · simp only [scanImages, if_neg hc]
      exact ih

/-- Every index above the scan's result (and at most the starting index)
failed the loop condition. -/
theorem scanImages_not_qual (images : List Img) (r : ℚ) :
    ∀ i k, scanImages images r i < k → k ≤ i →
      ¬(imgResolutionX images k - r ≤ 1 / 100) := by
  intro i
  induction i with
  | zero => intro k h1 h2; omega
  | succ n ih =>
    intro k h1 h2
    by_cases hc : imgResolutionX images (n + 1) - r ≤ 1 / 100
    · simp only [scanImages, if_pos hc] at h1
      omega
    · simp only [scanImages, if_neg hc] at h1
      rcases Nat.eq_or_lt_of_le h2 with hk | hk
      · rw [hk]
        exact hc
      · exact ih k h1 (by omega)

/-- Ceiling division recovers an upper bound: `a <= ceilDiv a b * b`. -/
theorem le_ceilDiv_mul (a b : Nat) (hb : 0 < b) : a ≤ ceilDiv a b * b := by
  rcases a with _ | n
  · exact Nat.zero_le _
  · have hq : ceilDiv (n + 1) b = n / b + 1 := by
      have h1 : n + 1 + b - 1 = n + b := by omega
      rw [ceilDiv, h1, Nat.add_div_right _ hb]
    rw [hq]
    exact (Nat.div_lt_iff_lt_mul hb).mp (Nat.lt_succ_self (n / b))

/-- In-range tile coordinates map to an in-range linear tile index. -/
theorem tileIndex_bounds {nx ny : Nat} {x y : Int} (hx : 0 ≤ x) (hx2 : x < (nx : Int))
    (hy : 0 ≤ y) (hy2 : y < (ny : Int)) :
    0 ≤ tileIndex nx x y ∧ tileIndex nx x y < ((nx * ny : Nat) : Int) := by
  unfold tileIndex
  constructor
  · have h1 : (0 : Int) ≤ y * (nx : Int) := mul_nonneg hy (by positivity)
    linarith
  · push_cast
    have h1 : y + 1 ≤ (ny : Int) := by linarith
    have h2 : (y + 1) * (nx : Int) ≤ (ny : Int) * (nx : Int) :=
      mul_le_mul_of_nonneg_right h1 (by positivity)
    nlinarith

/-! ## C1: the `getImageByResolution` contract -/

/-- C1. For every initialized reader with at least one image,
`getImageByResolution(r)` returns a valid index; scanning from the last
image toward the first it returns the first (hence largest, i.e. coarsest)
index whose x-resolution in base units is at most `r + 0.01`; every index
above the returned one fails that bound, so index `0` is returned exactly
when no image with positive index qualifies. -/
theorem c1_getImageByResolution_spec (images : List Img) (r : ℚ) (hne : images ≠ []) :
    getImageByResolution images r < images.length ∧
    (0 < getImageByResolution images r →
      imgResolutionX images (getImageByResolution images r) ≤ r + 1 / 100) ∧
    ∀ k, getImageByResolution images r < k → k < images.length →
      r + 1 / 100 < imgResolutionX images k := by
  have hlen : 0 < images.length := List.length_pos.mpr hne
  unfold getImageByResolution
  refine ⟨?_, ?_, ?_⟩
  · exact Nat.lt_of_le_of_lt (scanImages_le images r _) (Nat.sub_lt hlen Nat.one_pos)
  · intro h
    have hq := scanImages_qual images r (images.length - 1) h
    linarith
  · intro k hk hk2
    have hnq := scanImages_not_qual images r (images.length - 1) k hk (by omega)
    by_contra hlt
    push_neg at hlt
    exact hnq (by linarith)

/-- Witness for C1 at the concrete four-image pyramid. -/
theorem c1_witness : getImageByResolution c6images 100 < c6images.length :=
  (c1_getImageByResolution_spec c6images 100 (by decide)).1

/-! ## C6: resolution selection on the concrete pyramid -/

/-- C6 counterexample. On the pyramid with base resolution `1.0` and
overview resolutions `2.0, 4.0, 8.0`, `getImageByResolution(3.5)` returns
index 1 (the `2.0` image, since `4.0 <= 3.51` is false), not index 2 as
claimed. -/
theorem c6_counterexample :
    getImageByResolution c6images (7 / 2) = 1 ∧
    getImageByResolution c6images (7 / 2) ≠ 2 := by
  have h : getImageByResolution c6images (7 / 2) = 1 := by
    norm_num [getImageByResolution, c6images, scanImages, imgResolutionX, resolutionBaseX]
  exact ⟨h, by rw [h]; decide⟩

/-- C6 amended. `getImageByResolution(3.5)` returns the `2.0` image
(index 1); `getImageByResolution(0.5)` returns index 0; and
`getImageByResolution(100)` returns the coarsest image (index 3). -/
theorem c6_amended :
    getImageByResolution c6images (7 / 2) = 1 ∧
    getImageByResolution c6images (1 / 2) = 0 ∧
    getImageByResolution c6images 100 = 3 := by
  refine ⟨?_, ?_, ?_⟩ <;>
    norm_num [getImageByResolution, c6images, scanImages, imgResolutionX, resolutionBaseX]

/-! ## C9: the tile index is a bijection and the inner guard is dead -/

/-- C9. `idx = y * nxTiles + x` maps the rectangle
`[0, nx) x [0, ny)` bijectively onto `[0, nx * ny)` (in-range indices are
in bounds, the map is injective and surjective), and consequently for every
in-range coordinate pair `getTile` passes both guards and is exactly the
post-guard tile read at `tileIndex nxTiles x y`: the guard
`idx >= totalTiles` never fires. -/
theorem c9_tileIndex_bijection (nx ny : Nat) :
    (∀ x y : Int, 0 ≤ x → x < (nx : Int) → 0 ≤ y → y < (ny : Int) →
      0 ≤ tileIndex nx x y ∧ tileIndex nx x y < ((nx * ny : Nat) : Int)) ∧
    (∀ x₁ y₁ x₂ y₂ : Int, 0 ≤ x₁ → x₁ < (nx : Int) → 0 ≤ y₁ → y₁ < (ny : Int) →
      0 ≤ x₂ → x₂ < (nx : Int) → 0 ≤ y₂ → y₂ < (ny : Int) →
      tileIndex nx x₁ y₁ = tileIndex nx x₂ y₂ → x₁ = x₂ ∧ y₁ = y₂) ∧
    (∀ i : Int, 0 ≤ i → i < ((nx * ny : Nat) : Int) →
      ∃ x y : Int, 0 ≤ x ∧ x < (nx : Int) ∧ 0 ≤ y ∧ y < (ny : Int) ∧
        tileIndex nx x y = i) ∧
    (∀ (tiff : TiffModel) (img : ImageModel) (x y : Int) (m : MimeType),
      img.compression.bind tiffCompressionMime = some m →
      0 ≤ x → x < (nxTiles img : Int) → 0 ≤ y → y < (nyTiles img : Int) →
      getTile tiff img x y = getTileAtIndex tiff img (tileIndex (nxTiles img) x y)) := by
  refine ⟨?_, ?_, ?_, ?_⟩
  · intro x y hx hx2 hy hy2
    exact tileIndex_bounds hx hx2 hy hy2
  · intro x₁ y₁ x₂ y₂ hx₁ hx₁2 hy₁ hy₁2 hx₂ hx₂2 hy₂ hy₂2 heq
    unfold tileIndex at heq
    have hnx : (0 : Int) < (nx : Int) := lt_of_le_of_lt hx₁ hx₁2
    have hmod : ∀ x y : Int, 0 ≤ x → x < (nx : Int) → (y * (nx : Int) + x) % (nx : Int) = x := by
      intro x y hx hx2
      have hcomm : y * (nx : Int) + x = x + (nx : Int) * y := by ring
      rw [hcomm, Int.add_mul_emod_self_left, Int.emod_eq_of_lt hx hx2]
    have hdiv : ∀ x y : Int, 0 ≤ x → x < (nx : Int) → (y * (nx : Int) + x) / (nx : Int) = y := by
      intro x y hx hx2
      have hcomm : y * (nx : Int) + x = x + (nx : Int) * y := by ring
      rw [hcomm, Int.add_mul_ediv_left x y (ne_of_gt hnx),
        Int.ediv_eq_zero_of_lt hx hx2, zero_add]
    constructor
    · have e1 := hmod x₁ y₁ hx₁ hx₁2
      rw [heq] at e1
      exact e1.symm.trans (hmod x₂ y₂ hx₂ hx₂2)
    · have e1 := hdiv x₁ y₁ hx₁ hx₁2
      rw [heq] at e1
      exact e1.symm.trans (hdiv x₂ y₂ hx₂ hx₂2)
  · intro i hi hi2
    have hnx : (0 : Int) < (nx : Int) := by
      rcases Nat.eq_zero_or_pos nx with h | h
      · subst h
        simp at hi2
        omega
      · exact_mod_cast h
    refine ⟨i % (nx : Int), i / (nx : Int), Int.emod_nonneg i (ne_of_gt hnx),
      Int.emod_lt_of_pos i hnx, Int.ediv_nonneg hi (le_of_lt hnx), ?_, ?_⟩
    · rw [Int.ediv_lt_iff_lt_mul hnx]
      push_cast at hi2
      linarith [hi2, mul_comm (nx : Int) (ny : Int)]
    · unfold tileIndex
      have hde := Int.ediv_add_emod i (nx : Int)
      rw [mul_comm (i / (nx : Int)) (nx : Int)]
      linarith
  · intro tiff img x y m hm hx hx2 hy hy2
    unfold getTile
    rw [hm]
    dsimp only
    rw [if_neg ?hg1, if_neg ?hg2]
    case hg1 =>
      push_neg
      exact ⟨hx2, hy2⟩
    case hg2 =>
      exact not_le.mpr (tileIndex_bounds hx hx2 hy hy2).2

/-- Witness for C9, applying the guard-elimination part at a concrete
in-range coordinate of the 2 x 2 tiled image. -/
theorem c9_witness :
    getTile tiffPlain imgAllTiles 1 1 =
      getTileAtIndex tiffPlain imgAllTiles (tileIndex (nxTiles imgAllTiles) 1 1) :=
  (c9_tileIndex_bijection (nxTiles imgAllTiles) (nyTiles imgAllTiles)).2.2.2
    tiffPlain imgAllTiles 1 1 MimeType.octet rfl (by decide) (by decide) (by decide) (by decide)

/-! ## More helper lemmas for the tile path -/

/-- Reading zero bytes returns `null` (`byteCount === 0`) without any
fetch. -/
theorem getBytes_zero (tiff : TiffModel) (img : ImageModel) (m : MimeType)
    (hm : img.compression.bind tiffCompressionMime = some m) (off : Nat) :
    getBytes tiff img off 0 = .ok (none, []) := by
  unfold getBytes
  rw [hm]
  dsimp only
  rw [if_pos rfl]

/-- In leader mode a zero recorded tile offset short-circuits `getTileSize`
to `(0, 0)` without any fetch. -/
theorem getTileSize_leader_sparse (tiff : TiffModel) (img : ImageModel) (toff : NumTag)
    (idx : Int) (hl : tiff.leaderBytes.getD 0 ≠ 0) (hto : img.tileOffsets = some toff)
    (hoff : getOffset toff idx = .ok 0) :
    getTileSize tiff img idx = .ok ((0, 0), []) := by
  unfold getTileSize
  dsimp only
  rw [if_pos hl, hto]
  dsimp only
  rw [hoff]
  rfl

/-- Without a leader, `getTileSize` reads offset and byte count from the two
tag arrays and performs no fetch. -/
theorem getTileSize_noleader (tiff : TiffModel) (img : ImageModel) (toff bc : NumTag)
    (idx : Int) (off sz : Nat) (hl : tiff.leaderBytes.getD 0 = 0)
    (hbc : img.tileByteCounts = some bc) (hto : img.tileOffsets = some toff)
    (hoff : getOffset toff idx = .ok off) (hsz : getOffset bc idx = .ok sz) :
    getTileSize tiff img idx = .ok ((off, sz), []) := by
  unfold getTileSize
  dsimp only
  rw [if_neg (by simp [hl]), hbc, hto]
  dsimp only
  rw [hoff, hsz]

/-- For in-range coordinates both guards of `getTile` pass and the result is
the post-guard tile read. -/
theorem getTile_eq_atIndex (tiff : TiffModel) (img : ImageModel) (x y : Int) (m : MimeType)
    (hm : img.compression.bind tiffCompressionMime = some m)
    (hx : 0 ≤ x) (hx2 : x < (nxTiles img : Int)) (hy : 0 ≤ y) (hy2 : y < (nyTiles img : Int)) :
    getTile tiff img x y = getTileAtIndex tiff img (tileIndex (nxTiles img) x y) := by
  unfold getTile
  rw [hm]
  dsimp only
  rw [if_neg ?hg1, if_neg ?hg2]
  case hg1 =>
    push_neg
    exact ⟨hx2, hy2⟩
  case hg2 =>
    exact not_le.mpr (tileIndex_bounds hx hx2 hy hy2).2

/-! ## C2: sparse tiles -/

/-- C2 counterexample. In the non-leader configuration the sparse check of
`getBytes` tests the byte count, not the offset: on a tile whose recorded
offset is `0` but whose recorded byte count is `5`, `getTile` fetches 5
bytes at file offset `0` and returns them instead of returning `null`
without a fetch. -/
theorem c2_counterexample :
    getOffset (NumTag.offsetArr [0, 1000, 2000, 3000]) 0 = .ok 0 ∧
    getTile tiffPlain imgSparseMix 0 0 =
      .ok (some (MimeType.octet, [7, 7, 7, 7, 7]), [(0, 5)]) ∧
    some (MimeType.octet, ([7, 7, 7, 7, 7] : List Nat)) ≠
      (none : Option (MimeType × List Nat)) := by
  refine ⟨rfl, rfl, by decide⟩

/-- C2 amended. For every tiled image and in-range tile coordinate,
`getTile` returns `null` and performs no source fetch at all when either the
tile-leader optimization is active and the recorded tile offset is `0`, or
no leader is configured and the recorded tile byte count is `0` (in a sparse
COG both the offset and the byte count of an absent tile are `0`, so both
configurations return `null` there). -/
theorem c2_getTile_sparse (tiff : TiffModel) (img : ImageModel) (x y : Int) (m : MimeType)
    (toff : NumTag) (hm : img.compression.bind tiffCompressionMime = some m)
    (hto : img.tileOffsets = some toff)
    (hx : 0 ≤ x) (hx2 : x < (nxTiles img : Int)) (hy : 0 ≤ y) (hy2 : y < (nyTiles img : Int)) :
    (tiff.leaderBytes.getD 0 ≠ 0 →
      getOffset toff (tileIndex (nxTiles img) x y) = .ok 0 →
      getTile tiff img x y = .ok (none, [])) ∧
    (tiff.leaderBytes.getD 0 = 0 →
      ∀ (bc : NumTag) (offv : Nat), img.tileByteCounts = some bc →
        getOffset toff (tileIndex (nxTiles img) x y) = .ok offv →
        getOffset bc (tileIndex (nxTiles img) x y) = .ok 0 →
        getTile tiff img x y = .ok (none, [])) := by
  constructor
  · intro hl hoff
    rw [getTile_eq_atIndex tiff img x y m hm hx hx2 hy hy2]
    unfold getTileAtIndex
    rw [getTileSize_leader_sparse tiff img toff _ hl hto hoff]
    dsimp only
    rw [getBytes_zero tiff img m hm 0]
    rfl
  · intro hl bc offv hbc hoff hsz
    rw [getTile_eq_atIndex tiff img x y m hm hx hx2 hy hy2]
    unfold getTileAtIndex
    rw [getTileSize_noleader tiff img toff bc _ offv 0 hl hbc hto hoff hsz]
    dsimp only
    rw [getBytes_zero tiff img m hm offv]
    rfl

/-- Witness for C2 (amended): with a 4-byte leader, the tile of
`imgSparseMix` with recorded offset `0` yields `null` with no fetch. -/
theorem c2_witness : getTile tiffLeader imgSparseMix 0 0 = .ok (none, []) :=
  (c2_getTile_sparse tiffLeader imgSparseMix 0 0 MimeType.octet
      (NumTag.offsetArr [0, 1000, 2000, 3000]) rfl rfl (by decide) (by decide)
      (by decide) (by decide)).1 (by decide) rfl

/-! ## C5: `hasTile` -/

/-- C5 counterexample. The guard of `hasTile` only catches coordinates that
are too large: the out-of-range coordinate `(-1, 1)` aliases tile index 1
and answers `true`, and `(0, -1)` produces a negative index and raises the
`getOffset` bounds error, refuting that every out-of-range coordinate
returns `false` without error. -/
theorem c5_counterexample :
    hasTile tiffPlain imgAllTiles (-1) 1 = .ok (true, []) ∧
    hasTile tiffPlain imgAllTiles 0 (-1) = .error "TagIndex: out of bounds" := by
  exact ⟨rfl, rfl⟩

/-- C5 amended. For coordinates that are too large (`x >= nxTiles` or
`y >= nyTiles`) `hasTile` returns `false` without error or fetch; for
nonnegative in-range coordinates it returns, whenever `getTileSize`
succeeds, exactly the test `offset > 0` on the recorded tile offset of
`idx = y * nxTiles + x` (negative coordinates are not protected by the
guard). -/
theorem c5_hasTile (tiff : TiffModel) (img : ImageModel) (x y : Int) :
    (((nxTiles img : Int) ≤ x ∨ (nyTiles img : Int) ≤ y) →
      hasTile tiff img x y = .ok (false, [])) ∧
    (0 ≤ x → x < (nxTiles img : Int) → 0 ≤ y → y < (nyTiles img : Int) →
      ∀ (p : Nat × Nat) (fetches : List (Nat × Nat)),
        getTileSize tiff img (tileIndex (nxTiles img) x y) = .ok (p, fetches) →
        hasTile tiff img x y = .ok (decide (0 < p.1), fetches)) := by
  constructor
  · intro h
    unfold hasTile
    rw [if_pos h]
  · intro hx hx2 hy hy2 p fetches hts
    unfold hasTile
    rw [if_neg (by push_neg; exact ⟨hx2, hy2⟩), hts]

/-- Witness for C5 (amended) on the 2 x 2 image with all tiles present:
an out-of-range coordinate answers `false`, an in-range one answers
`offset > 0`. -/
theorem c5_witness :
    hasTile tiffPlain imgAllTiles 5 0 = .ok (false, []) ∧
    hasTile tiffPlain imgAllTiles 0 0 = .ok (true, []) := by
  constructor
  · exact (c5_hasTile tiffPlain imgAllTiles 5 0).1 (by decide)
  · exact (c5_hasTile tiffPlain imgAllTiles 0 0).2 (by decide) (by decide) (by decide)
      (by decide) (1000, 10) [] rfl

/-! ## C8: edge tile bounds -/

/-- C8 counterexample. On a 512 x 512 image with 256 x 256 tiles, the
in-range edge tile `(1, 1)` (rightmost column and bottom row) has clamped
width and height equal to the tile size, not strictly less: the claim's
strict inequality fails whenever the image size is an exact multiple of the
tile size. -/
theorem c8_counterexample :
    getTileBounds imgAllTiles 1 1 = (256, 256, 256, 256) ∧
    ¬((getTileBounds imgAllTiles 1 1).2.2.1 < ((imgAllTiles.tileWidth.getD 0 : Nat) : Int)) := by
  exact ⟨rfl, by decide⟩

/-- C8 amended. For every tiled image and in-range edge tile in the
rightmost column (resp. bottom row), `getTileBounds` clamps: the width
(resp. height) equals the remaining image extent, is at most the tile width
(resp. height), and is strictly less exactly when the tile size does not
divide the image size. -/
theorem c8_getTileBounds_edge (img : ImageModel) (x y : Int) (tw th : Nat)
    (htw : img.tileWidth = some tw) (hth : img.tileHeight = some th)
    (htw0 : 0 < tw) (hth0 : 0 < th)
    (hx : 0 ≤ x) (hx2 : x < (nxTiles img : Int)) (hy : 0 ≤ y) (hy2 : y < (nyTiles img : Int)) :
    (x = (nxTiles img : Int) - 1 →
      (getTileBounds img x y).2.2.1 = (img.width : Int) - x * (tw : Int) ∧
      (getTileBounds img x y).2.2.1 ≤ (tw : Int) ∧
      (¬ tw ∣ img.width → (getTileBounds img x y).2.2.1 < (tw : Int))) ∧
    (y = (nyTiles img : Int) - 1 →
      (getTileBounds img x y).2.2.2 = (img.height : Int) - y * (th : Int) ∧
      (getTileBounds img x y).2.2.2 ≤ (th : Int) ∧
      (¬ th ∣ img.height → (getTileBounds img x y).2.2.2 < (th : Int))) := by
  have hnx : nxTiles img = ceilDiv img.width tw := by
    unfold nxTiles
    rw [htw]
    rfl
  have hny : nyTiles img = ceilDiv img.height th := by
    unfold nyTiles
    rw [hth]
    rfl
  have hwle : img.width ≤ nxTiles img * tw := by
    rw [hnx]
    exact le_ceilDiv_mul _ _ htw0
  have hhle : img.height ≤ nyTiles img * th := by
    rw [hny]
    exact le_ceilDiv_mul _ _ hth0
  constructor
  · intro hxe
    have hcast : ((nxTiles img : Int) - 1) * (tw : Int) + (tw : Int) =
        ((nxTiles img * tw : Nat) : Int) := by
      push_cast
      ring
    have hcond : (img.width : Int) ≤ x * (tw : Int) + (tw : Int) := by
      rw [hxe, hcast]
      exact_mod_cast hwle
    have hw : (getTileBounds img x y).2.2.1 = (img.width : Int) - x * (tw : Int) := by
      unfold getTileBounds
      simp only [htw, hth, Option.getD_some]
      rw [if_pos hcond]
    refine ⟨hw, ?_, ?_⟩
    · rw [hw]
      linarith
    · intro hdvd
      have hne : img.width ≠ nxTiles img * tw := fun he => hdvd ⟨nxTiles img, by rw [he]; ring⟩
      have hlt : (img.width : Int) < ((nxTiles img * tw : Nat) : Int) := by
        exact_mod_cast lt_of_le_of_ne hwle hne
      rw [hw, hxe]
      linarith [hcast]
  · intro hye
    have hcast : ((nyTiles img : Int) - 1) * (th : Int) + (th : Int) =
        ((nyTiles img * th : Nat) : Int) := by
      push_cast
      ring
    have hcond : (img.height : Int) ≤ y * (th : Int) + (th : Int) := by
      rw [hye, hcast]
      exact_mod_cast hhle
    have hh : (getTileBounds img x y).2.2.2 = (img.height : Int) - y * (th : Int) := by
      unfold getTileBounds
      simp only [htw, hth, Option.getD_some]
      rw [if_pos hcond]
    refine ⟨hh, ?_, ?_⟩
    · rw [hh]
      linarith
    · intro hdvd
      have hne : img.height ≠ nyTiles img * th := fun he => hdvd ⟨nyTiles img, by rw [he]; ring⟩
      have hlt : (img.height : Int) < ((nyTiles img * th : Nat) : Int) := by
        exact_mod_cast lt_of_le_of_ne hhle hne
      rw [hh, hye]
      linarith [hcast]

/-- Witness for C8 (amended) on the 500 x 500 image with 256 x 256 tiles:
the right edge tile is 244 wide, strictly narrower than a tile. -/
theorem c8_witness :
    (getTileBounds img500 1 1).2.2.1 = 244 ∧ (getTileBounds img500 1 1).2.2.1 < 256 := by
  have h := (c8_getTileBounds_edge img500 1 1 256 256 rfl rfl (by decide) (by decide)
    (by decide) (by decide) (by decide) (by decide)).1 (by decide)
  refine ⟨?_, h.2.2 (by decide)⟩
  rw [h.1]
  decide

/-! ## C10: the off-by-one bounds check of `getOffset` -/

/-- C10. The `getOffset` helper raises its out-of-bounds error exactly when
the index is negative or strictly greater than the tag's `count`
(`index > x.count || index < 0`), so the index equal to `count` passes the
check; consequently, `getTileSize(count)` (non-leader mode, both tag arrays
present with equal counts) does not raise the `getOffset` bounds error but
succeeds. -/
theorem c10_getOffset_bounds (x : NumTag) (index : Int) :
    ((∃ e, getOffset x index = .error e) ↔ ((x.count : Int) < index ∨ index < 0)) ∧
    (∀ (tiff : TiffModel) (img : ImageModel) (toff bc : NumTag),
      tiff.leaderBytes = none →
      img.tileOffsets = some toff → img.tileByteCounts = some bc →
      bc.count = toff.count →
      ∃ r, getTileSize tiff img (toff.count : Int) = .ok r) := by
  constructor
  · constructor
    · rintro ⟨e, he⟩
      by_cases hc : (x.count : Int) < index ∨ index < 0
      · exact hc
      · unfold getOffset at he
        rw [if_neg hc] at he
        cases x with
        | inline vs =>
          dsimp only at he
          by_cases h1 : 1 < vs.length
          · rw [if_pos h1] at he
            exact Except.noConfusion he
          · rw [if_neg h1] at he
            exact Except.noConfusion he
        | offsetArr vs =>
          dsimp only at he
          exact Except.noConfusion he
    · intro h
      unfold getOffset
      rw [if_pos h]
      exact ⟨_, rfl⟩
  · intro tiff img toff bc hl hto hbc hcnt
    have h1 : ∃ v, getOffset toff (toff.count : Int) = .ok v := by
      unfold getOffset
      rw [if_neg (by omega)]
      cases toff with
      | inline vs =>
        dsimp only
        by_cases hv : 1 < vs.length
        · rw [if_pos hv]
          exact ⟨_, rfl⟩
        · rw [if_neg hv]
          exact ⟨_, rfl⟩
      | offsetArr vs => exact ⟨_, rfl⟩
    have h2 : ∃ v, getOffset bc (toff.count : Int) = .ok v := by
      unfold getOffset
      rw [if_neg (by omega)]
      cases bc with
      | inline vs =>
        dsimp only
        by_cases hv : 1 < vs.length
        · rw [if_pos hv]
          exact ⟨_, rfl⟩
        · rw [if_neg hv]
          exact ⟨_, rfl⟩
      | offsetArr vs => exact ⟨_, rfl⟩
    obtain ⟨v1, hv1⟩ := h1
    obtain ⟨v2, hv2⟩ := h2
    exact ⟨((v1, v2), []),
      getTileSize_noleader tiff img toff bc _ v1 v2 (by rw [hl]; rfl) hbc hto hv1 hv2⟩

/-- Witness for C10 on a two-element tag array: index 2 (the count itself)
raises no bounds error, and `getTileSize` at the count succeeds. -/
theorem c10_witness :
    (¬ ∃ e, getOffset (NumTag.offsetArr [5, 6]) 2 = .error e) ∧
    (∃ r, getTileSize tiffPlain imgTwo 2 = .ok r) := by
  constructor
  · intro h
    exact absurd ((c10_getOffset_bounds (NumTag.offsetArr [5, 6]) 2).1.mp h) (by decide)
  · exact (c10_getOffset_bounds (NumTag.offsetArr [5, 6]) 2).2 tiffPlain imgTwo
      (NumTag.offsetArr [5, 6]) (NumTag.offsetArr [8, 9]) rfl rfl rfl rfl

/-! ## C3: strip reads fetch `(offset, byteCount)` in the correct order -/

/-- C3 counterexample. The claim's conclusion "returns exactly
`StripByteCounts[i]` bytes" fails on two in-scope strip reads even though
the source delivers every requested range: a JPEG-compressed strip with
recorded byte count 6 goes through the `getJpegHeader` splice of `getBytes`
and returns 8 bytes (the 6-byte tables minus EOI plus the 6-byte payload
minus SOI), and a strip with recorded byte count 0 returns `null` with no
fetch instead of a byte array. -/
theorem c3_counterexample :
    getStrip tiffJpegSrc imgStripJpeg 0 =
      .ok (some (MimeType.jpeg, [255, 216, 255, 219, 7, 7, 255, 217]), [(100, 6)]) ∧
    ([255, 216, 255, 219, 7, 7, 255, 217] : List Nat).length ≠ 6 ∧
    getStrip tiffPlain imgStripZero 0 = .ok (none, []) := by
  exact ⟨rfl, by decide, rfl⟩

/-- C3 amended. For every untiled image and in-range strip index,
`getStrip` fetches from the source at file offset `StripOffsets[i]` with
length `StripByteCounts[i]` (despite the misleading local variable names,
the values line up with `getBytes(offset, byteCount)` correctly), and for a
positive byte count and a non-JPEG compression — where the bytes are passed
through unmodified — returns exactly `StripByteCounts[i]` bytes when the
source delivers the requested range. -/
theorem c3_getStrip_fetch (tiff : TiffModel) (img : ImageModel) (i : Int) (bc so : NumTag)
    (off cnt : Nat) (m : MimeType)
    (hnt : img.tileWidth = none)
    (hbc : img.stripByteCounts = some bc)
    (hso : img.stripOffsets = some so)
    (hi : i < (bc.count : Int))
    (hoff : getOffset so i = .ok off)
    (hcnt : getOffset bc i = .ok cnt)
    (hm : img.compression.bind tiffCompressionMime = some m)
    (hmj : m ≠ MimeType.jpeg)
    (hpos : 0 < cnt)
    (hdeliver : (tiff.source off cnt).length = cnt) :
    getStrip tiff img i = .ok (some (m, tiff.source off cnt), [(off, cnt)]) ∧
    (tiff.source off cnt).length = cnt := by
  refine ⟨?_, hdeliver⟩
  have ht : isTiled img = false := by
    unfold isTiled
    rw [hnt]
    rfl
  unfold getStrip
  rw [ht, if_neg Bool.false_ne_true, hbc]
  dsimp only
  rw [if_neg (not_le.mpr hi), hso]
  dsimp only
  rw [hoff, hcnt]
  dsimp only
  unfold getBytes
  rw [hm]
  dsimp only
  rw [if_neg (by omega)]
  rw [if_neg (by rw [hdeliver]; exact lt_irrefl cnt)]
  rw [if_neg hmj]

/-- Witness for C3 on the one-strip image: the single strip of 5 bytes at
offset 100 is fetched as `(100, 5)` and delivered in full. -/
theorem c3_witness :
    getStrip tiffPlain imgStrip 0 = .ok (some (MimeType.octet, [7, 7, 7, 7, 7]), [(100, 5)]) := by
  have h := (c3_getStrip_fetch tiffPlain imgStrip 0 (NumTag.offsetArr [5])
    (NumTag.offsetArr [100]) 100 5 MimeType.octet rfl rfl rfl (by decide) rfl rfl rfl
    (by decide) (by decide) rfl).1
  exact h

/-! ## C7: JPEG header splicing -/

/-- C7. For every JPEG-compressed tile whose `JPEGTables` value has length
`L >= 4` and starts with the SOI marker, and whose fetched payload has
length `T >= 4` and ends with the EOI marker, the returned byte array is the
tables without their trailing EOI followed by the payload without its
leading SOI: it has length `L + T - 4`, begins with `FF D8` and ends with
`FF D9`. -/
theorem c7_getBytes_jpeg (tiff : TiffModel) (img : ImageModel) (offset : Nat)
    (tables payload : List Nat)
    (hc : img.compression.bind tiffCompressionMime = some MimeType.jpeg)
    (ht : img.jpegTables = some tables)
    (hL : 4 ≤ tables.length)
    (htb : tables.take 2 = [0xFF, 0xD8])
    (hT : 4 ≤ payload.length)
    (hsrc : tiff.source offset payload.length = payload)
    (hpe : payload.drop (payload.length - 2) = [0xFF, 0xD9]) :
    getBytes tiff img offset payload.length =
      .ok (some (MimeType.jpeg, tables.take (tables.length - 2) ++ payload.drop 2),
        [(offset, payload.length)]) ∧
    (tables.take (tables.length - 2) ++ payload.drop 2).length =
      tables.length + payload.length - 4 ∧
    (tables.take (tables.length - 2) ++ payload.drop 2).take 2 = [0xFF, 0xD8] ∧
    (tables.take (tables.length - 2) ++ payload.drop 2).drop
      (tables.length + payload.length - 6) = [0xFF, 0xD9] := by
  have hlen : (tables.take (tables.length - 2)).length = tables.length - 2 := by
    rw [List.length_take]
    omega
  refine ⟨?_, ?_, ?_, ?_⟩
  · unfold getBytes
    rw [hc]
    dsimp only
    rw [if_neg (by omega), hsrc]
    rw [if_neg (lt_irrefl payload.length), if_pos rfl]
    unfold getJpegHeader
    rw [ht]
  · rw [List.length_append, hlen, List.length_drop]
    omega
  · rw [List.take_append_of_le_length (by omega), List.take_take]
    have h2 : 2 ⊓ (tables.length - 2) = 2 := by omega
    rw [h2, htb]
  · have hsplit : tables.length + payload.length - 6 =
        (tables.take (tables.length - 2)).length + (payload.length - 4) := by
      rw [hlen]
      omega
    rw [hsplit, List.drop_append, List.drop_drop]
    have h3 : 2 + (payload.length - 4) = payload.length - 2 := by omega
    rw [h3, hpe]

/-- Witness for C7 on a 4-byte table block and a 6-byte payload: the output
is the 6-byte spliced JPEG. -/
theorem c7_witness :
    getBytes tiffJpegSrc imgJpeg 100 6 =
      .ok (some (MimeType.jpeg, [255, 216, 7, 7, 255, 217]), [(100, 6)]) := by
  have h := (c7_getBytes_jpeg tiffJpegSrc imgJpeg 100 [255, 216, 255, 217] jpegPayload
    rfl rfl (by decide) (by decide) (by decide) rfl (by decide)).1
  exact h

/-! ## C4: GeoKey ascii extraction -/

/-- C4 counterexample. With the key tuple `(1026, 34737, 11, 0)` and
`GeoAsciiParams = "WGS 84|foo|"`, the loop slices
`[0, 0 + 11 - 1) = [0, 10)`, yielding the string `WGS 84|foo` (only the
final delimiter is dropped), so `valueGeo(GTCitationGeoKey)` is
`"WGS 84|foo"` and not `"WGS 84"` as claimed. -/
theorem c4_counterexample :
    (loadGeoTiffTags c4dir c4lookup).map (fun m => valueGeo m 1026) =
      .ok (some (GeoVal.strv "WGS 84|foo")) ∧
    GeoVal.strv "WGS 84|foo" ≠ GeoVal.strv "WGS 84" := by
  exact ⟨rfl, by decide⟩

/-- C4 amended. After unpacking the directory
`{1026, 34737, 11, 0}` against `GeoAsciiParams = "WGS 84|foo|"`, the
`tagsGeo` map holds exactly `GTCitationGeoKey (1026)` bound to the sliced
and trimmed string `"WGS 84|foo"`, and `valueGeo(1026)` returns it. -/
theorem c4_amended :
    loadGeoTiffTags c4dir c4lookup = .ok [(1026, GeoVal.strv "WGS 84|foo")] ∧
    valueGeo [(1026, GeoVal.strv "WGS 84|foo")] 1026 = some (GeoVal.strv "WGS 84|foo") := by
  exact ⟨rfl, rfl⟩
